import Mathlib

/-!
Verification of the HTTP request-execution engine of
`terraform-provider-http-client` (package `httpclient`).

The engine is shallowly embedded from the Go source: `getTLSVersion`,
`configureHTTPTransport`, `RequestConfig`, `RequestResult` and
`ExecuteRequest` follow the source file that defines them line by line.
Machine integers are modelled as `Nat`/`Int` (TLS version constants fit in
`uint16`; no arithmetic overflows occur in the code). Effectful library
primitives (x509 parsing, PEM decoding, request construction, the network)
are supplied through an explicit environment `GoEnv`, so that the engine's
control flow over their results is exactly the source's control flow.
-/

namespace HttpClient

/-! ## Go library constants (crypto/tls) -/

/-- Go `tls.VersionTLS10` (0x0301). -/
def VersionTLS10 : Nat := 769

/-- Go `tls.VersionTLS11` (0x0302). -/
def VersionTLS11 : Nat := 770

/-- Go `tls.VersionTLS12` (0x0303). -/
def VersionTLS12 : Nat := 771

/-- Go `tls.VersionTLS13` (0x0304). -/
def VersionTLS13 : Nat := 772

/-- Model of Go `strings.ToUpper` restricted to ASCII (every string the
engine compares against is ASCII; `Char.toUpper` uppercases exactly the
ASCII lowercase letters). -/
def goToUpper (s : String) : String := String.mk (s.data.map Char.toUpper)

/-! ## Error taxonomy

The Go code reports failures through `fmt.Errorf`. Each construction site
gets one constructor; `errorMessage` reproduces the Go format string. -/

inductive GoError where
  | invalidTLSVersion (version : String)
  | invalidHTTPVersion (httpVersion : String)
  | protocolPrerequisiteUnmet
  | certParseFailure (msg : String)
  | caParseFailure (msg : String)
  | requestBuildFailure (msg : String)
  | transportError (msg : String)
  | responseReadFailure (msg : String)
  | unexpectedStatusCode (code : Int)
  | tooManyRedirects
  deriving DecidableEq, Repr

/-- The `error.Error()` text of each failure, as produced by the source's
`fmt.Errorf` calls (wrapped causes are carried as their message text). -/
def errorMessage : GoError → String
  | .invalidTLSVersion v =>
      "invalid TLS version: " ++ v ++ " (valid values: TLS10, TLS11, TLS12, TLS13)"
  | .invalidHTTPVersion v =>
      "invalid HTTP version: " ++ v ++ " (valid values: HTTP1.1, HTTP2)"
  | .protocolPrerequisiteUnmet => "HTTP/3 requires TLS 1.3"
  | .certParseFailure m => "failed to parse client certificate: " ++ m
  | .caParseFailure m => "failed to parse CA certificate: " ++ m
  | .requestBuildFailure m => m
  | .transportError m => m
  | .responseReadFailure m => m
  | .unexpectedStatusCode c => "unexpected HTTP status code " ++ toString c
  | .tooManyRedirects => "stopped after too many redirects"

/-! ## TLS configuration and certificates -/

/-- An X.509 certificate as produced by `x509.ParseCertificate`; only its
identity matters to the engine, which stores it in the trust pool. -/
structure Certificate where
  der : List Nat
  deriving DecidableEq, Repr

/-- A client identity as produced by `tls.X509KeyPair`. -/
structure TLSCertificate where
  id : Nat
  deriving DecidableEq, Repr

/-- Go `tls.Config`, restricted to the fields the engine sets. `RootCAs`
is `none` when the field is left nil and `some pool` once assigned. -/
structure TLSConfig where
  InsecureSkipVerify : Bool
  MinVersion : Nat
  Certificates : List TLSCertificate
  RootCAs : Option (List Certificate)
  deriving DecidableEq, Repr

/-- One PEM block as returned by `pem.Decode`: its type line and payload. -/
structure PEMBlock where
  type : String
  bytes : List Nat
  deriving DecidableEq, Repr

/-! ## Transports -/

/-- The round trippers the factory can build: Go `http.Transport` with the
fields the source sets (dial timeout is the `net.Dialer.Timeout` used by
`DialContext`), and `http3.Transport`, on which the source sets only
`TLSClientConfig` — the `http3.Transport` literal in the source has no
timeout field at all. -/
inductive RoundTripper where
  | httpTransport (TLSClientConfig : TLSConfig) (ForceAttemptHTTP2 : Bool)
      (DialTimeout TLSHandshakeTimeout ResponseHeaderTimeout : Int)
  | http3Transport (TLSClientConfig : TLSConfig)
  deriving DecidableEq, Repr

/-- The TLS configuration a transport carries. -/
def RoundTripper.tlsClientConfig : RoundTripper → TLSConfig
  | .httpTransport c _ _ _ _ => c
  | .http3Transport c => c

/-- The (dial, TLS-handshake, response-header) timeout fields a transport
carries; `none` for the HTTP/3 transport, which has no such fields. -/
def RoundTripper.timeoutFields : RoundTripper → Option (Int × Int × Int)
  | .httpTransport _ _ d h r => some (d, h, r)
  | .http3Transport _ => none

/-! ## Source: httpclient_utils (TLS resolver and transport factory) -/

/-- Go `getTLSVersion`: `switch strings.ToUpper(version)` over the four
symbolic names, defaulting to the invalid-TLS-version error. -/
def getTLSVersion (version : String) : Except GoError Nat :=
  let u := goToUpper version
  if u = "TLS10" then .ok VersionTLS10
  else if u = "TLS11" then .ok VersionTLS11
  else if u = "TLS12" then .ok VersionTLS12
  else if u = "TLS13" then .ok VersionTLS13
  else .error (.invalidTLSVersion version)

/-- Go `configureHTTPTransport(httpVersion, tlsConfig, timeout)`:
uppercases the version (no trimming), then switches over the recognized
names; the HTTP/3 branch first checks `tlsConfig.MinVersion <
tls.VersionTLS13`. -/
def configureHTTPTransport (httpVersion : String) (tlsConfig : TLSConfig)
    (timeout : Int) : Except GoError RoundTripper :=
  let version := goToUpper httpVersion
  if version = "" ∨ version = "HTTP1.1" ∨ version = "HTTP/1.1" then
    .ok (.httpTransport tlsConfig false timeout timeout timeout)
  else if version = "HTTP2" ∨ version = "HTTP/2" then
    .ok (.httpTransport tlsConfig true timeout timeout timeout)
  else if version = "HTTP3" ∨ version = "HTTP/3" then
    if tlsConfig.MinVersion < VersionTLS13 then
      .error .protocolPrerequisiteUnmet
    else
      .ok (.http3Transport tlsConfig)
  else .error (.invalidHTTPVersion httpVersion)

/-! ## Request configuration and result -/

/-- Go `RequestConfig`. `Ctx` is omitted (it is only threaded to
`http.NewRequestWithContext`). `Headers` is an association list standing
for the Go `map[string]string` (keys unique, iteration order immaterial to
every property proved below). `FollowRedirects` and `MaxRedirects` are the
fields declared by the provider schemas and used by the tests. -/
structure RequestConfig where
  URL : String
  Method : String
  Headers : List (String × String)
  Body : List Nat
  Username : String
  Password : String
  Timeout : Int
  Insecure : Bool
  TLSMinVersion : String
  ClientCertPEM : String
  ClientKeyPEM : String
  CACertPEM : String
  HTTPVersion : String
  ExpectedStatusCodes : List Int
  FailOnHTTPError : Bool
  FollowRedirects : Bool
  MaxRedirects : Int
  deriving Repr

/-- Go `RequestResult`. -/
structure RequestResult where
  ResponseCode : Int
  ResponseHeaders : List (String × String)
  ResponseBody : List Nat
  deriving DecidableEq, Repr

/-! ## HTTP request construction (net/http, net/textproto) -/

/-- Go `textproto` valid header-field byte: digits, letters, and the
token punctuation bytes 33 35 36 37 38 39 42 43 45 46 94 95 96 124 126. -/
def validHeaderFieldChar (c : Char) : Bool :=
  let n := c.toNat
  (48 ≤ n ∧ n ≤ 57) ∨ (65 ≤ n ∧ n ≤ 90) ∨ (97 ≤ n ∧ n ≤ 122) ∨
    n ∈ [33, 35, 36, 37, 38, 39, 42, 43, 45, 46, 94, 95, 96, 124, 126]

/-- The canonicalizing pass of `textproto.CanonicalMIMEHeaderKey`:
uppercase at the start and after each hyphen, lowercase elsewhere. -/
def canonChars : Bool → List Char → List Char
  | _, [] => []
  | upper, c :: rest =>
    let c' := if upper then c.toUpper else c.toLower
    c' :: canonChars (c' = '-') rest

/-- Go `textproto.CanonicalMIMEHeaderKey`: keys containing an invalid
byte are returned unchanged, otherwise the key is canonicalized. -/
def canonicalMIMEHeaderKey (s : String) : String :=
  if s.data.all validHeaderFieldChar then String.mk (canonChars true s.data) else s

/-- Replace the binding of `k` in an association list, or append it:
the map-update semantics of `http.Header.Set` after canonicalization. -/
def setAssoc : List (String × String) → String → String → List (String × String)
  | [], k, v => [(k, v)]
  | (k', v') :: rest, k, v =>
    if k' = k then (k, v) :: rest else (k', v') :: setAssoc rest k v

/-- Go `req.Header.Set(k, v)`. -/
def headerSet (h : List (String × String)) (k v : String) : List (String × String) :=
  setAssoc h (canonicalMIMEHeaderKey k) v

/-- Go `req.Header.Get(k)` (as an `Option` to distinguish absence). -/
def headerGet (h : List (String × String)) (k : String) : Option String :=
  (h.find? fun p => p.1 = canonicalMIMEHeaderKey k).map Prod.snd

/-- The standard base64 alphabet (`base64.StdEncoding`). -/
def b64Char (n : Nat) : Char :=
  "ABCDEFGHIJKLMNOPQRSTUVWXYZabcdefghijklmnopqrstuvwxyz0123456789+/".data.getD n 'A'

/-- `base64.StdEncoding.EncodeToString` over a byte list. -/
def base64Encode : List Nat → String
  | [] => ""
  | [a] =>
    String.mk [b64Char (a / 4), b64Char (a % 4 * 16), '=', '=']
  | [a, b] =>
    String.mk [b64Char (a / 4), b64Char (a % 4 * 16 + b / 16), b64Char (b % 16 * 4), '=']
  | a :: b :: c :: rest =>
    String.mk [b64Char (a / 4), b64Char (a % 4 * 16 + b / 16),
      b64Char (b % 16 * 4 + c / 64), b64Char (c % 64)] ++ base64Encode rest

/-- UTF-8 encoding of one character, as byte values. -/
def utf8EncodeCharBytes (c : Char) : List Nat :=
  let n := c.toNat
  if n < 128 then [n]
  else if n < 2048 then [192 + n / 64, 128 + n % 64]
  else if n < 65536 then [224 + n / 4096, 128 + n / 64 % 64, 128 + n % 64]
  else [240 + n / 262144, 128 + n / 4096 % 64, 128 + n / 64 % 64, 128 + n % 64]

/-- UTF-8 bytes of a string, as `Nat`s. -/
def utf8Bytes (s : String) : List Nat := (s.data.map utf8EncodeCharBytes).flatten

/-- Go `basicAuth(username, password)` from net/http:
`base64(username ++ ":" ++ password)`. -/
def basicAuthEncode (username password : String) : String :=
  base64Encode (utf8Bytes (username ++ ":" ++ password))

/-- The outgoing request: the fields of Go `http.Request` the engine
touches. -/
structure HTTPRequest where
  Method : String
  URL : String
  Header : List (String × String)
  Body : List Nat
  deriving DecidableEq, Repr

/-! ## Network model -/

/-- One response as observed by the client: status code, header (each key
with its value list), and the outcome of reading the body stream
(`io.ReadAll` may fail after the headers arrived). -/
structure HTTPResponse where
  statusCode : Int
  headers : List (String × List String)
  bodyRead : Except String (List Nat)
  deriving Repr

/-- What the server/network does at hop `n` of a call: fail at the
transport level, answer with a terminal response, or answer with a
redirect (3xx) response. -/
inductive ServerStep where
  | netFailure (msg : String)
  | terminal (resp : HTTPResponse)
  | redirect (resp : HTTPResponse)
  deriving Repr

/-- The effectful library primitives `ExecuteRequest` calls, supplied as
an explicit environment:
`x509KeyPair` is `tls.X509KeyPair`, `parseCertificate` is
`x509.ParseCertificate`, `pemTrace s` is the sequence of blocks successive
`pem.Decode` calls yield on `s` before returning nil, `newRequest` is the
validation performed by `http.NewRequestWithContext`, and `serve` is the
server/network behaviour at each redirect hop. -/
structure GoEnv where
  x509KeyPair : String → String → Except String TLSCertificate
  parseCertificate : List Nat → Except String Certificate
  pemTrace : String → List PEMBlock
  newRequest : String → String → Except String Unit
  serve : Nat → ServerStep

/-! ## Source: ExecuteRequest, step by step -/

/-- Lines 94-101: `minVersion := tls.VersionTLS12`, overridden through
`getTLSVersion` when `cfg.TLSMinVersion != ""`, propagating its error. -/
def resolveMinVersion (tlsMinVersion : String) : Except GoError Nat :=
  if tlsMinVersion = "" then .ok VersionTLS12 else getTLSVersion tlsMinVersion

/-- Lines 109-115: when both client cert and key PEM are non-empty, parse
them with `tls.X509KeyPair`; on error fail with the cert-parse message,
else install the single certificate. -/
def loadClientCerts (env : GoEnv) (certPEM keyPEM : String) :
    Except GoError (List TLSCertificate) :=
  if certPEM ≠ "" ∧ keyPEM ≠ "" then
    match env.x509KeyPair certPEM keyPEM with
    | .error e => .error (.certParseFailure e)
    | .ok cert => .ok [cert]
  else .ok []

/-- Lines 121-134: the `pem.Decode` loop. Each decoded block of type
`CERTIFICATE` is parsed with `x509.ParseCertificate` (failure aborts the
call with the CA-parse error) and appended to the pool; other blocks are
skipped; the loop ends when no further block decodes. -/
def caPoolLoop (parseCertificate : List Nat → Except String Certificate) :
    List PEMBlock → List Certificate → Except GoError (List Certificate)
  | [], pool => .ok pool
  | block :: rest, pool =>
    if block.type = "CERTIFICATE" then
      match parseCertificate block.bytes with
      | .error e => .error (.caParseFailure e)
      | .ok cert => caPoolLoop parseCertificate rest (pool ++ [cert])
    else caPoolLoop parseCertificate rest pool

/-- Lines 117-136: when `cfg.CACertPEM != ""`, run the decode loop on a
fresh empty pool and assign the result (possibly still empty) to
`RootCAs`. -/
def loadRootCAs (env : GoEnv) (caCertPEM : String) :
    Except GoError (Option (List Certificate)) :=
  if caCertPEM ≠ "" then
    match caPoolLoop env.parseCertificate (env.pemTrace caCertPEM) [] with
    | .error e => .error e
    | .ok pool => .ok (some pool)
  else .ok none

/-- Lines 94-136: the TLS configuration assembled by `ExecuteRequest`. -/
def buildTLSConfig (cfg : RequestConfig) (env : GoEnv) : Except GoError TLSConfig := do
  let minVersion ← resolveMinVersion cfg.TLSMinVersion
  let certs ← loadClientCerts env cfg.ClientCertPEM cfg.ClientKeyPEM
  let roots ← loadRootCAs env cfg.CACertPEM
  .ok { InsecureSkipVerify := cfg.Insecure, MinVersion := minVersion,
        Certificates := certs, RootCAs := roots }

/-- Lines 139-152: `http.NewRequestWithContext` (empty method becomes
`GET`, header starts empty), then every entry of `cfg.Headers` is applied
with `Header.Set`, then `SetBasicAuth` runs `if cfg.Username != ""`. -/
def buildOutgoingRequest (cfg : RequestConfig) (env : GoEnv) :
    Except GoError HTTPRequest :=
  match env.newRequest cfg.Method cfg.URL with
  | .error e => .error (.requestBuildFailure e)
  | .ok _ =>
    let req : HTTPRequest :=
      { Method := if cfg.Method = "" then "GET" else cfg.Method,
        URL := cfg.URL, Header := [], Body := cfg.Body }
    let req := { req with
      Header := cfg.Headers.foldl (fun h kv => headerSet h kv.1 kv.2) req.Header }
    if cfg.Username ≠ "" then
      let basic := "Basic " ++ basicAuthEncode cfg.Username cfg.Password
      .ok { req with Header := headerSet req.Header "Authorization" basic }
    else .ok req

/-- Modelled from the spec: the redirect-chasing loop of the `http.Client`
used by `ExecuteRequest`. The client construction with its redirect policy
(`CheckRedirect` honouring `followRedirects`/`maxRedirects`) is not part
of the sources available under src/ — only the schema declarations, the
marshalling callers and the test exercising `FollowRedirects:
true, MaxRedirects: 5` are — so this loop follows the spec's words: the
client follows redirects up to `maxRedirects` hops, and a chain exceeding
that bound fails with TooManyRedirects. -/
def redirectChase (serve : Nat → ServerStep) : Nat → Nat → Except GoError HTTPResponse
  | hop, 0 =>
    match serve hop with
    | .netFailure e => .error (.transportError e)
    | .terminal resp => .ok resp
    | .redirect _ => .error .tooManyRedirects
  | hop, fuel + 1 =>
    match serve hop with
    | .netFailure e => .error (.transportError e)
    | .terminal resp => .ok resp
    | .redirect _ => redirectChase serve (hop + 1) fuel

/-- Modelled from the spec: `client.Do`. When `followRedirects` is false
the first response is returned as-is (a 3xx is not chased); when true the
client follows redirects up to `maxRedirects` hops. -/
def clientDo (followRedirects : Bool) (maxRedirects : Int)
    (serve : Nat → ServerStep) : Except GoError HTTPResponse :=
  if followRedirects then
    redirectChase serve 0 maxRedirects.toNat
  else
    match serve 0 with
    | .netFailure e => .error (.transportError e)
    | .terminal resp => .ok resp
    | .redirect resp => .ok resp

/-- Line 171-174: `io.ReadAll(resp.Body)`; a failure is returned to the
caller (classified as the response-read failure). -/
def readBody (resp : HTTPResponse) : Except GoError (List Nat) :=
  match resp.bodyRead with
  | .error e => .error (.responseReadFailure e)
  | .ok b => .ok b

/-- Lines 178-184: the membership loop over `cfg.ExpectedStatusCodes`
(with early break). -/
def statusMember : List Int → Int → Bool
  | [], _ => false
  | code :: rest, statusCode =>
    if statusCode = code then true else statusMember rest statusCode

/-- Lines 176-188: when `cfg.FailOnHTTPError` is set, compute `valid` by
the membership loop and fail `if !valid && len(cfg.ExpectedStatusCodes) >
0`. -/
def checkStatus (failOnHTTPError : Bool) (expected : List Int) (statusCode : Int) :
    Except GoError Unit :=
  if failOnHTTPError then
    let valid := statusMember expected statusCode
    if ¬valid ∧ expected.length > 0 then
      .error (.unexpectedStatusCode statusCode)
    else .ok ()
  else .ok ()

/-- Go `strings.Join(v, ", ")`. -/
def joinComma : List String → String
  | [] => ""
  | [v] => v
  | v :: rest => v ++ ", " ++ joinComma rest

/-- Lines 191-194: every response header value list joined with `", "`. -/
def joinHeaders (hs : List (String × List String)) : List (String × String) :=
  hs.map fun kv => (kv.1, joinComma kv.2)

/-- Lines 196-200: the normalized `RequestResult` built from a response
and its body bytes. -/
def mkResult (resp : HTTPResponse) (b : List Nat) : RequestResult :=
  { ResponseCode := resp.statusCode, ResponseHeaders := joinHeaders resp.headers,
    ResponseBody := b }

/-- Lines 165-201 after the transport exists: perform the call (redirect
policy per `clientDo`), read the body, check the expected status codes,
normalize. -/
def finishRequest (cfg : RequestConfig) (env : GoEnv) : Except GoError RequestResult := do
  let resp ← clientDo cfg.FollowRedirects cfg.MaxRedirects env.serve
  let respBody ← readBody resp
  let _ ← checkStatus cfg.FailOnHTTPError cfg.ExpectedStatusCodes resp.statusCode
  .ok { ResponseCode := resp.statusCode,
        ResponseHeaders := joinHeaders resp.headers,
        ResponseBody := respBody }

/-- Go `ExecuteRequest(cfg)`: build the TLS configuration, build the
outgoing request, build the transport (propagating each error), then
perform and normalize the call. -/
def ExecuteRequest (cfg : RequestConfig) (env : GoEnv) : Except GoError RequestResult := do
  let tlsConfig ← buildTLSConfig cfg env
  let _ ← buildOutgoingRequest cfg env
  let _ ← configureHTTPTransport cfg.HTTPVersion tlsConfig cfg.Timeout
  finishRequest cfg env

/-! ## Sample configurations and environments used by witnesses -/

/-- A TLS configuration with the default TLS 1.2 floor. -/
def tlsDefault : TLSConfig :=
  { InsecureSkipVerify := false, MinVersion := VersionTLS12,
    Certificates := [], RootCAs := none }

/-- A TLS configuration with a TLS 1.3 floor. -/
def tls13Config : TLSConfig :=
  { InsecureSkipVerify := false, MinVersion := VersionTLS13,
    Certificates := [], RootCAs := none }

/-- A terminal 200 response with body bytes `ok`. -/
def okResp : HTTPResponse :=
  { statusCode := 200, headers := [("A", ["x", "y"])], bodyRead := .ok [111, 107] }

/-- A baseline request configuration (all optional inputs empty). -/
def cfg0 : RequestConfig :=
  { URL := "http://example", Method := "GET", Headers := [], Body := [],
    Username := "", Password := "", Timeout := 5, Insecure := false,
    TLSMinVersion := "", ClientCertPEM := "", ClientKeyPEM := "", CACertPEM := "",
    HTTPVersion := "", ExpectedStatusCodes := [], FailOnHTTPError := false,
    FollowRedirects := false, MaxRedirects := 0 }

/-- A baseline environment: parsing primitives succeed, `pemTrace` yields
no block (as `pem.Decode` does on text that is not PEM), the server
answers 200 at every hop. -/
def env0 : GoEnv :=
  { x509KeyPair := fun _ _ => .ok { id := 0 },
    parseCertificate := fun _ => .ok { der := [] },
    pemTrace := fun _ => [],
    newRequest := fun _ _ => .ok (),
    serve := fun _ => .terminal okResp }

/-- An environment whose CA input decodes to a single CERTIFICATE block
that fails X.509 parsing. -/
def envCAfail : GoEnv :=
  { env0 with
    pemTrace := fun _ => [{ type := "CERTIFICATE", bytes := [1] }],
    parseCertificate := fun _ => .error "bad" }

/-- A 302 redirect response. -/
def redirResp : HTTPResponse :=
  { statusCode := 302, headers := [("Location", ["/next"])], bodyRead := .ok [] }

/-- A server that redirects once and then answers 200. -/
def envRedirectOnce : GoEnv :=
  { env0 with serve := fun n => if n = 0 then .redirect redirResp else .terminal okResp }

/-- A server that redirects at every hop. -/
def envRedirectAlways : GoEnv :=
  { env0 with serve := fun _ => .redirect redirResp }

/-- A 200 response whose body read fails. -/
def bodyFailResp : HTTPResponse :=
  { statusCode := 200, headers := [], bodyRead := .error "boom" }

/-- A server answering with `bodyFailResp` at every hop. -/
def envBodyFail : GoEnv :=
  { env0 with serve := fun _ => .terminal bodyFailResp }

/-- The header state after setting a bearer token and then the Basic
credentials of `user:pass`, as the request-building step does. -/
def bearerThenBasic : List (String × String) :=
  headerSet (headerSet [] "Authorization" "Bearer token123") "Authorization"
    ("Basic " ++ basicAuthEncode "user" "pass")

/-! ## Helper lemmas -/

theorem except_bind_ok {ε α β : Type} (a : α) (f : α → Except ε β) :
    (Except.ok a >>= f : Except ε β) = f a := rfl

theorem except_bind_error {ε α β : Type} (e : ε) (f : α → Except ε β) :
    (Except.error e >>= f : Except ε β) = .error e := rfl

theorem buildTLSConfig_serve_irrel (cfg : RequestConfig) (env : GoEnv)
    (s : Nat → ServerStep) :
    buildTLSConfig cfg { env with serve := s } = buildTLSConfig cfg env := by
  cases env
  rfl

theorem buildOutgoingRequest_serve_irrel (cfg : RequestConfig) (env : GoEnv)
    (s : Nat → ServerStep) :
    buildOutgoingRequest cfg { env with serve := s } = buildOutgoingRequest cfg env := by
  cases env
  rfl

theorem ExecuteRequest_tls_error (cfg : RequestConfig) (env : GoEnv) (e : GoError)
    (h : buildTLSConfig cfg env = .error e) :
    ExecuteRequest cfg env = .error e := by
  simp [ExecuteRequest, h, except_bind_error]

theorem ExecuteRequest_req_error (cfg : RequestConfig) (env : GoEnv)
    (tc : TLSConfig) (e : GoError)
    (h1 : buildTLSConfig cfg env = .ok tc)
    (h2 : buildOutgoingRequest cfg env = .error e) :
    ExecuteRequest cfg env = .error e := by
  simp [ExecuteRequest, h1, h2, except_bind_ok, except_bind_error]

theorem ExecuteRequest_transport_error (cfg : RequestConfig) (env : GoEnv)
    (tc : TLSConfig) (req : HTTPRequest) (e : GoError)
    (h1 : buildTLSConfig cfg env = .ok tc)
    (h2 : buildOutgoingRequest cfg env = .ok req)
    (h3 : configureHTTPTransport cfg.HTTPVersion tc cfg.Timeout = .error e) :
    ExecuteRequest cfg env = .error e := by
  simp [ExecuteRequest, h1, h2, h3, except_bind_ok, except_bind_error]

theorem ExecuteRequest_run (cfg : RequestConfig) (env : GoEnv)
    (tc : TLSConfig) (req : HTTPRequest) (rt : RoundTripper)
    (h1 : buildTLSConfig cfg env = .ok tc)
    (h2 : buildOutgoingRequest cfg env = .ok req)
    (h3 : configureHTTPTransport cfg.HTTPVersion tc cfg.Timeout = .ok rt) :
    ExecuteRequest cfg env = finishRequest cfg env := by
  simp [ExecuteRequest, h1, h2, h3, except_bind_ok]

theorem buildTLSConfig_minVersion (cfg : RequestConfig) (env : GoEnv) (tc : TLSConfig)
    (h : buildTLSConfig cfg env = .ok tc) :
    resolveMinVersion cfg.TLSMinVersion = .ok tc.MinVersion := by
  cases hm : resolveMinVersion cfg.TLSMinVersion with
  | error e => simp [buildTLSConfig, hm, except_bind_error] at h
  | ok v =>
    cases hc : loadClientCerts env cfg.ClientCertPEM cfg.ClientKeyPEM with
    | error e => simp [buildTLSConfig, hm, hc, except_bind_ok, except_bind_error] at h
    | ok certs =>
      cases hr : loadRootCAs env cfg.CACertPEM with
      | error e => simp [buildTLSConfig, hm, hc, hr, except_bind_ok, except_bind_error] at h
      | ok roots =>
        simp [buildTLSConfig, hm, hc, hr, except_bind_ok] at h
        subst h
        rfl

/-! ## Claim C5: TLS version resolution -/

/-- Claim C5: for every string whose (ASCII) uppercase form is one of
TLS10, TLS11, TLS12, TLS13, `getTLSVersion` succeeds, the four resolved
floors are strictly increasing in that order, and every other string
fails with the InvalidTLSVersion error. -/
theorem getTLSVersion_resolution :
    (∀ s : String, goToUpper s = "TLS10" → getTLSVersion s = .ok VersionTLS10) ∧
    (∀ s : String, goToUpper s = "TLS11" → getTLSVersion s = .ok VersionTLS11) ∧
    (∀ s : String, goToUpper s = "TLS12" → getTLSVersion s = .ok VersionTLS12) ∧
    (∀ s : String, goToUpper s = "TLS13" → getTLSVersion s = .ok VersionTLS13) ∧
    (VersionTLS10 < VersionTLS11 ∧ VersionTLS11 < VersionTLS12 ∧
      VersionTLS12 < VersionTLS13) ∧
    (∀ s : String,
      goToUpper s ∉ ["TLS10", "TLS11", "TLS12", "TLS13"] →
      getTLSVersion s = .error (.invalidTLSVersion s)) := by
  refine ⟨?_, ?_, ?_, ?_, by decide, ?_⟩
  · intro s h
    simp [getTLSVersion, h]
  · intro s h
    simp [getTLSVersion, h]
  · intro s h
    simp [getTLSVersion, h]
  · intro s h
    simp [getTLSVersion, h]
  · intro s h
    simp only [List.mem_cons, List.not_mem_nil, or_false, not_or] at h
    simp [getTLSVersion, h]

/-- Witness for C5 at the concrete inputs `tls13` and `bogus`. -/
theorem getTLSVersion_resolution_witness :
    getTLSVersion "tls13" = .ok VersionTLS13 ∧
    getTLSVersion "bogus" = .error (.invalidTLSVersion "bogus") :=
  ⟨getTLSVersion_resolution.2.2.2.1 "tls13" rfl,
   getTLSVersion_resolution.2.2.2.2.2 "bogus" (by decide)⟩

/-! ## Claim C7: protocol selection -/

/-- Claim C7 counterexample: protocol selection does not trim surrounding
whitespace. `" HTTP2"` trims to the recognized name `HTTP2`, which selects
the HTTP/2 transport, yet the factory rejects `" HTTP2"` with the
invalid-HTTP-version error, because the source only uppercases the input
and never trims it. -/
theorem httpVersion_not_trimmed_counterexample :
    " HTTP2".data = ' ' :: "HTTP2".data ∧
    configureHTTPTransport "HTTP2" tlsDefault 5 =
      .ok (.httpTransport tlsDefault true 5 5 5) ∧
    configureHTTPTransport " HTTP2" tlsDefault 5 =
      .error (.invalidHTTPVersion " HTTP2") :=
  ⟨rfl, rfl, rfl⟩

/-- Claim C7 amended: protocol selection is case-insensitive — the branch
taken depends only on the (ASCII) uppercased input, with no whitespace
trimming — and every unrecognized input fails with an InvalidHTTPVersion
error whose message names `HTTP1.1` and `HTTP2` as the valid values. -/
theorem protocol_selection_amended (v : String) (c : TLSConfig) (t : Int) :
    ((goToUpper v = "" ∨ goToUpper v = "HTTP1.1" ∨ goToUpper v = "HTTP/1.1") →
        configureHTTPTransport v c t = .ok (.httpTransport c false t t t)) ∧
    ((goToUpper v = "HTTP2" ∨ goToUpper v = "HTTP/2") →
        configureHTTPTransport v c t = .ok (.httpTransport c true t t t)) ∧
    ((goToUpper v = "HTTP3" ∨ goToUpper v = "HTTP/3") →
        configureHTTPTransport v c t =
          if c.MinVersion < VersionTLS13 then .error .protocolPrerequisiteUnmet
          else .ok (.http3Transport c)) ∧
    (goToUpper v ∉ ["", "HTTP1.1", "HTTP/1.1", "HTTP2", "HTTP/2", "HTTP3", "HTTP/3"] →
        configureHTTPTransport v c t = .error (.invalidHTTPVersion v) ∧
        errorMessage (.invalidHTTPVersion v) =
          "invalid HTTP version: " ++ v ++ " (valid values: HTTP1.1, HTTP2)") := by
  refine ⟨?_, ?_, ?_, ?_⟩
  · rintro (h | h | h) <;> simp [configureHTTPTransport, h]
  · rintro (h | h) <;> simp [configureHTTPTransport, h]
  · rintro (h | h) <;> simp [configureHTTPTransport, h]
  · intro h
    simp only [List.mem_cons, List.not_mem_nil, or_false, not_or] at h
    obtain ⟨h1, h2, h3, h4, h5, h6, h7⟩ := h
    exact ⟨by simp [configureHTTPTransport, h1, h2, h3, h4, h5, h6, h7], rfl⟩

/-- Witness for C7 at the concrete inputs `http/2` and `SPDY`. -/
theorem protocol_selection_amended_witness :
    configureHTTPTransport "http/2" tlsDefault 5 =
      .ok (.httpTransport tlsDefault true 5 5 5) ∧
    configureHTTPTransport "SPDY" tlsDefault 5 =
      .error (.invalidHTTPVersion "SPDY") :=
  ⟨(protocol_selection_amended "http/2" tlsDefault 5).2.1 (Or.inr rfl),
   ((protocol_selection_amended "SPDY" tlsDefault 5).2.2.2 (by decide)).1⟩

/-! ## Claim C4: transports honor TLS settings and timeouts -/

/-- Claim C4 counterexample: the transport produced by the HTTP/3 branch
carries the TLS settings but no connection/handshake/response-header
timeout derived from the call timeout — the `http3.Transport` literal in
the source sets only `TLSClientConfig`, so its timeout fields are absent
(`none`), not the call timeout. -/
theorem http3_transport_no_timeout_counterexample :
    configureHTTPTransport "HTTP3" tls13Config 7 = .ok (.http3Transport tls13Config) ∧
    RoundTripper.timeoutFields (.http3Transport tls13Config) = none ∧
    RoundTripper.timeoutFields (.http3Transport tls13Config) ≠ some (7, 7, 7) :=
  ⟨rfl, rfl, by decide⟩

/-- Claim C4 amended: every transport the factory produces carries the
configured TLS settings verbatim; the HTTP/1.1 and HTTP/2 branches also
carry dial, TLS-handshake and response-header timeouts all equal to the
overall call timeout, while the HTTP/3 branch produces the QUIC transport
with the TLS settings only and no transport-level timeout fields. -/
theorem transport_tls_and_timeouts_amended (v : String) (c : TLSConfig) (t : Int)
    (rt : RoundTripper) (h : configureHTTPTransport v c t = .ok rt) :
    rt.tlsClientConfig = c ∧
    (rt.timeoutFields = some (t, t, t) ∨
      (rt = .http3Transport c ∧ rt.timeoutFields = none)) := by
  by_cases h1 : goToUpper v = "" ∨ goToUpper v = "HTTP1.1" ∨ goToUpper v = "HTTP/1.1"
  · simp [configureHTTPTransport, h1] at h
    subst h
    exact ⟨rfl, Or.inl rfl⟩
  · by_cases h2 : goToUpper v = "HTTP2" ∨ goToUpper v = "HTTP/2"
    · simp [configureHTTPTransport, h1, h2] at h
      subst h
      exact ⟨rfl, Or.inl rfl⟩
    · by_cases h3 : goToUpper v = "HTTP3" ∨ goToUpper v = "HTTP/3"
      · by_cases h4 : c.MinVersion < VersionTLS13
        · simp [configureHTTPTransport, h1, h2, h3, h4] at h
        · simp [configureHTTPTransport, h1, h2, h3, h4] at h
          subst h
          exact ⟨rfl, Or.inr ⟨rfl, rfl⟩⟩
      · simp [configureHTTPTransport, h1, h2, h3] at h

/-- Witness for C4 at the HTTP/2 and HTTP/3 branches. -/
theorem transport_tls_and_timeouts_amended_witness :
    (RoundTripper.tlsClientConfig (.httpTransport tlsDefault true 5 5 5) = tlsDefault ∧
      (RoundTripper.timeoutFields (.httpTransport tlsDefault true 5 5 5) = some (5, 5, 5) ∨
        (RoundTripper.httpTransport tlsDefault true 5 5 5 = .http3Transport tlsDefault ∧
          RoundTripper.timeoutFields (.httpTransport tlsDefault true 5 5 5) = none))) ∧
    (RoundTripper.tlsClientConfig (.http3Transport tls13Config) = tls13Config ∧
      (RoundTripper.timeoutFields (.http3Transport tls13Config) = some (9, 9, 9) ∨
        (RoundTripper.http3Transport tls13Config = .http3Transport tls13Config ∧
          RoundTripper.timeoutFields (.http3Transport tls13Config) = none))) :=
  ⟨transport_tls_and_timeouts_amended "HTTP2" tlsDefault 5 (.httpTransport tlsDefault true 5 5 5) rfl,
   transport_tls_and_timeouts_amended "HTTP3" tls13Config 9 (.http3Transport tls13Config) rfl⟩

/-! ## Claim C3: HTTP/3 requires a TLS 1.3 floor -/

/-- Claim C3: whenever the requested HTTP version uppercases to `HTTP3` or
`HTTP/3` and the resolved TLS floor is below TLS13, `ExecuteRequest`
fails, its outcome is independent of the network behaviour (no network
attempt can influence it), and the transport factory — consulted with the
TLS configuration the call builds — rejects the request with the
ProtocolPrerequisiteUnmet error before any transport is built. -/
theorem http3_below_tls13_fails (cfg : RequestConfig) (env : GoEnv)
    (hv : goToUpper cfg.HTTPVersion = "HTTP3" ∨ goToUpper cfg.HTTPVersion = "HTTP/3")
    (v : Nat) (hres : resolveMinVersion cfg.TLSMinVersion = .ok v)
    (hlt : v < VersionTLS13) :
    (∃ e, ExecuteRequest cfg env = .error e) ∧
    (∀ s1 s2 : Nat → ServerStep,
        ExecuteRequest cfg { env with serve := s1 } =
          ExecuteRequest cfg { env with serve := s2 }) ∧
    (∀ tc : TLSConfig, buildTLSConfig cfg env = .ok tc →
        configureHTTPTransport cfg.HTTPVersion tc cfg.Timeout =
          .error .protocolPrerequisiteUnmet) := by
  have hfac : ∀ tc : TLSConfig, buildTLSConfig cfg env = .ok tc →
      configureHTTPTransport cfg.HTTPVersion tc cfg.Timeout =
        .error .protocolPrerequisiteUnmet := by
    intro tc htc
    have hmin := buildTLSConfig_minVersion cfg env tc htc
    rw [hres] at hmin
    cases hmin
    have hne1 : ¬(goToUpper cfg.HTTPVersion = "" ∨ goToUpper cfg.HTTPVersion = "HTTP1.1" ∨
        goToUpper cfg.HTTPVersion = "HTTP/1.1") := by
      rcases hv with h | h <;> rw [h] <;> decide
    have hne2 : ¬(goToUpper cfg.HTTPVersion = "HTTP2" ∨
        goToUpper cfg.HTTPVersion = "HTTP/2") := by
      rcases hv with h | h <;> rw [h] <;> decide
    simp [configureHTTPTransport, hne1, hne2, hv, hlt]
  have herr : ∀ env' : GoEnv, buildTLSConfig cfg env' = buildTLSConfig cfg env →
      buildOutgoingRequest cfg env' = buildOutgoingRequest cfg env →
      (ExecuteRequest cfg env' =
        match buildTLSConfig cfg env, buildOutgoingRequest cfg env with
        | .error e, _ => .error e
        | .ok _, .error e => .error e
        | .ok _, .ok _ => .error .protocolPrerequisiteUnmet) := by
    intro env' htls hreq
    cases htc : buildTLSConfig cfg env with
    | error e =>
      simpa [htc] using ExecuteRequest_tls_error cfg env' e (htls.trans htc)
    | ok tc =>
      cases hr : buildOutgoingRequest cfg env with
      | error e =>
        simpa [htc, hr] using
          ExecuteRequest_req_error cfg env' tc e (htls.trans htc) (hreq.trans hr)
      | ok req =>
        simpa [htc, hr] using
          ExecuteRequest_transport_error cfg env' tc req .protocolPrerequisiteUnmet
            (htls.trans htc) (hreq.trans hr) (hfac tc htc)
  refine ⟨?_, ?_, hfac⟩
  · rw [herr env rfl rfl]
    cases htc : buildTLSConfig cfg env with
    | error e => exact ⟨e, rfl⟩
    | ok tc =>
      cases hr : buildOutgoingRequest cfg env with
      | error e => exact ⟨e, rfl⟩
      | ok req => exact ⟨.protocolPrerequisiteUnmet, rfl⟩
  · intro s1 s2
    rw [herr { env with serve := s1 } (buildTLSConfig_serve_irrel cfg env s1)
          (buildOutgoingRequest_serve_irrel cfg env s1),
        herr { env with serve := s2 } (buildTLSConfig_serve_irrel cfg env s2)
          (buildOutgoingRequest_serve_irrel cfg env s2)]

/-- Witness for C3: HTTP/3 requested with the default TLS 1.2 floor over
the baseline environment. -/
theorem http3_below_tls13_fails_witness :
    (∃ e, ExecuteRequest { cfg0 with HTTPVersion := "http3" } env0 = .error e) ∧
    (∀ s1 s2 : Nat → ServerStep,
        ExecuteRequest { cfg0 with HTTPVersion := "http3" } { env0 with serve := s1 } =
          ExecuteRequest { cfg0 with HTTPVersion := "http3" } { env0 with serve := s2 }) ∧
    (∀ tc : TLSConfig,
        buildTLSConfig { cfg0 with HTTPVersion := "http3" } env0 = .ok tc →
        configureHTTPTransport "http3" tc 5 = .error .protocolPrerequisiteUnmet) :=
  http3_below_tls13_fails { cfg0 with HTTPVersion := "http3" } env0
    (Or.inl rfl) VersionTLS12 rfl (by decide)

/-! ## Claim C2: CA certificate loading -/

theorem caPoolLoop_error_shape (p : List Nat → Except String Certificate) :
    ∀ (blocks : List PEMBlock) (pool : List Certificate) (e : GoError),
      caPoolLoop p blocks pool = .error e → ∃ m, e = .caParseFailure m := by
  intro blocks
  induction blocks with
  | nil =>
    intro pool e h
    simp [caPoolLoop] at h
  | cons b rest ih =>
    intro pool e h
    by_cases hb : b.type = "CERTIFICATE"
    · rw [caPoolLoop, if_pos hb] at h
      cases hp : p b.bytes with
      | error m =>
        rw [hp] at h
        cases h
        exact ⟨m, rfl⟩
      | ok cert =>
        rw [hp] at h
        exact ih (pool ++ [cert]) e h
    · rw [caPoolLoop, if_neg hb] at h
      exact ih pool e h

/-- Claim C2 counterexample: `env0.pemTrace` yields no block on
`"not a pem"` — exactly what `pem.Decode` does on text containing no
decodable PEM block — yet the call with that non-empty `caCertPEM` does
not fail with a CA parse error: it installs an empty trust pool
(`RootCAs = some []`) and proceeds to the network, succeeding with the
server's 200 response. -/
theorem caCert_no_block_counterexample :
    ({ cfg0 with CACertPEM := "not a pem" } : RequestConfig).CACertPEM ≠ "" ∧
    env0.pemTrace "not a pem" = [] ∧
    buildTLSConfig { cfg0 with CACertPEM := "not a pem" } env0 =
      .ok { InsecureSkipVerify := false, MinVersion := VersionTLS12,
            Certificates := [], RootCAs := some [] } ∧
    ExecuteRequest { cfg0 with CACertPEM := "not a pem" } env0 =
      .ok { ResponseCode := 200, ResponseHeaders := [("A", "x, y")],
            ResponseBody := [111, 107] } :=
  ⟨by decide, rfl, rfl, rfl⟩

/-- Claim C2 amended: for every non-empty caCertPEM (given the TLS floor
and client-certificate stages succeed), the call fails — always with a
CAParseFailure, and before any network I/O — exactly when the PEM decode
loop fails, i.e. when some decodable CERTIFICATE block fails X.509
parsing; when the loop succeeds (in particular when the input contains no
decodable block at all) the call does not fail at CA loading but installs
the accumulated — possibly empty — trust pool and proceeds. -/
theorem caCert_parse_failure_amended (cfg : RequestConfig) (env : GoEnv)
    (hne : cfg.CACertPEM ≠ "")
    (hres : ∃ v, resolveMinVersion cfg.TLSMinVersion = .ok v)
    (hcert : ∃ cs, loadClientCerts env cfg.ClientCertPEM cfg.ClientKeyPEM = .ok cs) :
    (∀ e, caPoolLoop env.parseCertificate (env.pemTrace cfg.CACertPEM) [] = .error e →
        (∃ m, e = .caParseFailure m) ∧
        ExecuteRequest cfg env = .error e ∧
        (∀ s1 s2 : Nat → ServerStep,
            ExecuteRequest cfg { env with serve := s1 } =
              ExecuteRequest cfg { env with serve := s2 })) ∧
    (∀ pool, caPoolLoop env.parseCertificate (env.pemTrace cfg.CACertPEM) [] = .ok pool →
        ∃ tc, buildTLSConfig cfg env = .ok tc ∧ tc.RootCAs = some pool) ∧
    (env.pemTrace cfg.CACertPEM = [] →
        ∃ tc, buildTLSConfig cfg env = .ok tc ∧ tc.RootCAs = some []) := by
  obtain ⟨v, hresv⟩ := hres
  obtain ⟨cs, hcerts⟩ := hcert
  have hok : ∀ pool, caPoolLoop env.parseCertificate (env.pemTrace cfg.CACertPEM) [] = .ok pool →
      ∃ tc, buildTLSConfig cfg env = .ok tc ∧ tc.RootCAs = some pool := by
    intro pool hpool
    refine ⟨{ InsecureSkipVerify := cfg.Insecure, MinVersion := v,
              Certificates := cs, RootCAs := some pool }, ?_, rfl⟩
    have hroots : loadRootCAs env cfg.CACertPEM = .ok (some pool) := by
      simp [loadRootCAs, hne, hpool]
    simp [buildTLSConfig, hresv, hcerts, hroots, except_bind_ok]
  refine ⟨?_, hok, ?_⟩
  · intro e hloop
    have hshape := caPoolLoop_error_shape env.parseCertificate
      (env.pemTrace cfg.CACertPEM) [] e hloop
    have hroots : loadRootCAs env cfg.CACertPEM = .error e := by
      simp [loadRootCAs, hne, hloop]
    have hbuild : buildTLSConfig cfg env = .error e := by
      simp [buildTLSConfig, hresv, hcerts, hroots, except_bind_ok, except_bind_error]
    refine ⟨hshape, ExecuteRequest_tls_error cfg env e hbuild, ?_⟩
    intro s1 s2
    rw [ExecuteRequest_tls_error cfg { env with serve := s1 } e
          ((buildTLSConfig_serve_irrel cfg env s1).trans hbuild),
        ExecuteRequest_tls_error cfg { env with serve := s2 } e
          ((buildTLSConfig_serve_irrel cfg env s2).trans hbuild)]
  · intro htrace
    refine hok [] ?_
    rw [htrace]
    rfl

/-- Witness for C2 (amended) at a concrete failing CA input and at the
baseline empty-trace environment. -/
theorem caCert_parse_failure_amended_witness :
    ((∃ m, (GoError.caParseFailure "bad") = .caParseFailure m) ∧
      ExecuteRequest { cfg0 with CACertPEM := "bad pem" } envCAfail =
        .error (.caParseFailure "bad") ∧
      (∀ s1 s2 : Nat → ServerStep,
          ExecuteRequest { cfg0 with CACertPEM := "bad pem" } { envCAfail with serve := s1 } =
            ExecuteRequest { cfg0 with CACertPEM := "bad pem" } { envCAfail with serve := s2 })) ∧
    (∃ tc, buildTLSConfig { cfg0 with CACertPEM := "not a pem" } env0 = .ok tc ∧
        tc.RootCAs = some []) :=
  ⟨(caCert_parse_failure_amended { cfg0 with CACertPEM := "bad pem" } envCAfail
      (by decide) ⟨VersionTLS12, rfl⟩ ⟨[], rfl⟩).1 (.caParseFailure "bad") rfl,
   (caCert_parse_failure_amended { cfg0 with CACertPEM := "not a pem" } env0
      (by decide) ⟨VersionTLS12, rfl⟩ ⟨[], rfl⟩).2.2 rfl⟩

/-! ## Claim C1: redirect policy -/

theorem redirectChase_reaches_terminal (serve : Nat → ServerStep) :
    ∀ (k hop fuel : Nat) (resp : HTTPResponse),
      (∀ i, i < k → ∃ r, serve (hop + i) = .redirect r) →
      serve (hop + k) = .terminal resp → k ≤ fuel →
      redirectChase serve hop fuel = .ok resp := by
  intro k
  induction k with
  | zero =>
    intro hop fuel resp _ hterm _
    rw [Nat.add_zero] at hterm
    cases fuel with
    | zero => simp [redirectChase, hterm]
    | succ fuel => simp [redirectChase, hterm]
  | succ k ih =>
    intro hop fuel resp hred hterm hle
    obtain ⟨r, hr⟩ := hred 0 (Nat.succ_pos k)
    rw [Nat.add_zero] at hr
    cases fuel with
    | zero => omega
    | succ fuel' =>
      have hstep : redirectChase serve hop (fuel' + 1) =
          redirectChase serve (hop + 1) fuel' := by
        simp [redirectChase, hr]
      rw [hstep]
      refine ih (hop + 1) fuel' resp ?_ ?_ (by omega)
      · intro i hi
        have h := hred (i + 1) (by omega)
        rwa [show hop + (i + 1) = hop + 1 + i from by omega] at h
      · rwa [show hop + 1 + k = hop + (k + 1) from by omega]

theorem redirectChase_exhausts (serve : Nat → ServerStep) :
    ∀ (fuel hop : Nat),
      (∀ i, i ≤ fuel → ∃ r, serve (hop + i) = .redirect r) →
      redirectChase serve hop fuel = .error .tooManyRedirects := by
  intro fuel
  induction fuel with
  | zero =>
    intro hop hred
    obtain ⟨r, hr⟩ := hred 0 (Nat.le_refl 0)
    rw [Nat.add_zero] at hr
    simp [redirectChase, hr]
  | succ fuel ih =>
    intro hop hred
    obtain ⟨r, hr⟩ := hred 0 (Nat.zero_le _)
    rw [Nat.add_zero] at hr
    have hstep : redirectChase serve hop (fuel + 1) =
        redirectChase serve (hop + 1) fuel := by
      simp [redirectChase, hr]
    rw [hstep]
    refine ih (hop + 1) ?_
    intro i hi
    have h := hred (i + 1) (by omega)
    rwa [show hop + (i + 1) = hop + 1 + i from by omega] at h

theorem finishRequest_of_ok (cfg : RequestConfig) (env : GoEnv)
    (resp : HTTPResponse) (b : List Nat)
    (hdo : clientDo cfg.FollowRedirects cfg.MaxRedirects env.serve = .ok resp)
    (hb : resp.bodyRead = .ok b)
    (hchk : checkStatus cfg.FailOnHTTPError cfg.ExpectedStatusCodes resp.statusCode = .ok ()) :
    finishRequest cfg env = .ok (mkResult resp b) := by
  simp [finishRequest, hdo, readBody, hb, hchk, mkResult, except_bind_ok]

theorem finishRequest_of_do_error (cfg : RequestConfig) (env : GoEnv) (e : GoError)
    (hdo : clientDo cfg.FollowRedirects cfg.MaxRedirects env.serve = .error e) :
    finishRequest cfg env = .error e := by
  simp [finishRequest, hdo, except_bind_error]

theorem checkStatus_of_not_fail (expected : List Int) (statusCode : Int) :
    checkStatus false expected statusCode = .ok () := rfl

/-- Claim C1 (the client's redirect policy is modelled from the spec,
its implementation not being among the sources; the configuration stages
are assumed to succeed and status-code checking is off): when
`FollowRedirects` is false a redirect response from hop 0 is returned
as-is as the result; when it is true, a chain of `k ≤ MaxRedirects`
redirect hops ending in a terminal response yields that terminal
response, and a chain that is still redirecting after `MaxRedirects`
hops fails with the TooManyRedirects error. -/
theorem executeRequest_redirect_policy (cfg : RequestConfig) (env : GoEnv)
    (tc : TLSConfig) (req : HTTPRequest) (rt : RoundTripper)
    (h1 : buildTLSConfig cfg env = .ok tc)
    (h2 : buildOutgoingRequest cfg env = .ok req)
    (h3 : configureHTTPTransport cfg.HTTPVersion tc cfg.Timeout = .ok rt)
    (hchk : cfg.FailOnHTTPError = false) :
    (cfg.FollowRedirects = false →
      ∀ resp b, env.serve 0 = .redirect resp → resp.bodyRead = .ok b →
        ExecuteRequest cfg env = .ok (mkResult resp b)) ∧
    (cfg.FollowRedirects = true →
      ∀ k resp b, (∀ i, i < k → ∃ r, env.serve i = .redirect r) →
        env.serve k = .terminal resp → k ≤ cfg.MaxRedirects.toNat →
        resp.bodyRead = .ok b →
        ExecuteRequest cfg env = .ok (mkResult resp b)) ∧
    (cfg.FollowRedirects = true →
      (∀ i, i ≤ cfg.MaxRedirects.toNat → ∃ r, env.serve i = .redirect r) →
        ExecuteRequest cfg env = .error .tooManyRedirects) := by
  have hrun := ExecuteRequest_run cfg env tc req rt h1 h2 h3
  refine ⟨?_, ?_, ?_⟩
  · intro hf resp b hserve hb
    have hdo : clientDo cfg.FollowRedirects cfg.MaxRedirects env.serve = .ok resp := by
      simp [clientDo, hf, hserve]
    rw [hrun]
    exact finishRequest_of_ok cfg env resp b hdo hb (by rw [hchk]; rfl)
  · intro hf k resp b hred hterm hle hb
    have hdo : clientDo cfg.FollowRedirects cfg.MaxRedirects env.serve = .ok resp := by
      rw [clientDo, if_pos hf]
      refine redirectChase_reaches_terminal env.serve k 0 cfg.MaxRedirects.toNat resp ?_ ?_ hle
      · intro i hi
        simpa using hred i hi
      · simpa using hterm
    rw [hrun]
    exact finishRequest_of_ok cfg env resp b hdo hb (by rw [hchk]; rfl)
  · intro hf hred
    have hdo : clientDo cfg.FollowRedirects cfg.MaxRedirects env.serve =
        .error .tooManyRedirects := by
      rw [clientDo, if_pos hf]
      refine redirectChase_exhausts env.serve cfg.MaxRedirects.toNat 0 ?_
      intro i hi
      simpa using hred i hi
    rw [hrun]
    exact finishRequest_of_do_error cfg env .tooManyRedirects hdo

/-- Witness for C1: with redirects off a 302 is returned as-is; with
redirects on and `MaxRedirects = 5` a one-hop chain reaches the terminal
200; a server that never stops redirecting exhausts `MaxRedirects = 2`
and fails with TooManyRedirects. -/
theorem executeRequest_redirect_policy_witness :
    ExecuteRequest { cfg0 with FollowRedirects := false } envRedirectOnce =
      .ok (mkResult redirResp []) ∧
    ExecuteRequest { cfg0 with FollowRedirects := true, MaxRedirects := 5 } envRedirectOnce =
      .ok (mkResult okResp [111, 107]) ∧
    ExecuteRequest { cfg0 with FollowRedirects := true, MaxRedirects := 2 } envRedirectAlways =
      .error .tooManyRedirects := by
  refine ⟨?_, ?_, ?_⟩
  · exact (executeRequest_redirect_policy { cfg0 with FollowRedirects := false }
      envRedirectOnce tlsDefault
      { Method := "GET", URL := "http://example", Header := [], Body := [] }
      (.httpTransport tlsDefault false 5 5 5) rfl rfl rfl rfl).1 rfl redirResp [] rfl rfl
  · exact (executeRequest_redirect_policy
      { cfg0 with FollowRedirects := true, MaxRedirects := 5 } envRedirectOnce tlsDefault
      { Method := "GET", URL := "http://example", Header := [], Body := [] }
      (.httpTransport tlsDefault false 5 5 5) rfl rfl rfl rfl).2.1 rfl 1 okResp [111, 107]
      (by intro i hi
          have h0 : i = 0 := by omega
          subst h0
          exact ⟨redirResp, rfl⟩)
      rfl (by decide) rfl
  · exact (executeRequest_redirect_policy
      { cfg0 with FollowRedirects := true, MaxRedirects := 2 } envRedirectAlways tlsDefault
      { Method := "GET", URL := "http://example", Header := [], Body := [] }
      (.httpTransport tlsDefault false 5 5 5) rfl rfl rfl rfl).2.2 rfl
      (fun i _ => ⟨redirResp, rfl⟩)

/-! ## Claim C6: expected-status-code enforcement -/

theorem statusMember_iff (statusCode : Int) :
    ∀ l : List Int, statusMember l statusCode = true ↔ statusCode ∈ l := by
  intro l
  induction l with
  | nil => simp [statusMember]
  | cons c rest ih =>
    by_cases h : statusCode = c
    · simp [statusMember, h]
    · simp [statusMember, h, ih]

theorem checkStatus_fail (expected : List Int) (statusCode : Int)
    (hne : expected ≠ []) (hnm : statusCode ∉ expected) :
    checkStatus true expected statusCode = .error (.unexpectedStatusCode statusCode) := by
  have hm : statusMember expected statusCode = false := by
    rw [← Bool.not_eq_true, statusMember_iff]
    exact hnm
  have hlen : expected.length > 0 := List.length_pos.mpr hne
  simp [checkStatus, hm, hlen]

theorem checkStatus_pass (expected : List Int) (statusCode : Int)
    (hm : statusCode ∈ expected) :
    checkStatus true expected statusCode = .ok () := by
  have h : statusMember expected statusCode = true := (statusMember_iff _ _).mpr hm
  simp [checkStatus, h]

theorem checkStatus_empty (f : Bool) (statusCode : Int) :
    checkStatus f [] statusCode = .ok () := by
  cases f <;> simp [checkStatus, statusMember]

theorem checkStatus_error_shape (f : Bool) (expected : List Int) (s : Int) (e : GoError)
    (h : checkStatus f expected s = .error e) : e = .unexpectedStatusCode s := by
  cases f with
  | false => simp [checkStatus] at h
  | true =>
    by_cases hc : ¬statusMember expected s = true ∧ expected.length > 0
    · simp only [checkStatus, if_pos hc, if_true] at h
      cases h
      rfl
    · simp only [checkStatus, if_neg hc, if_true] at h
      cases h

theorem finishRequest_of_status_error (cfg : RequestConfig) (env : GoEnv)
    (resp : HTTPResponse) (b : List Nat) (e : GoError)
    (hdo : clientDo cfg.FollowRedirects cfg.MaxRedirects env.serve = .ok resp)
    (hb : resp.bodyRead = .ok b)
    (hchk : checkStatus cfg.FailOnHTTPError cfg.ExpectedStatusCodes resp.statusCode = .error e) :
    finishRequest cfg env = .error e := by
  simp [finishRequest, hdo, readBody, hb, hchk, except_bind_ok, except_bind_error]

/-- Claim C6 (the call is assumed to have produced a response whose body
reads successfully): with `FailOnHTTPError` true and a non-empty
`ExpectedStatusCodes`, the call fails with the UnexpectedStatusCode error
— returning no result — exactly when the response status is not a member
of the set; with `ExpectedStatusCodes` empty the check is skipped and the
call succeeds whatever the status code, even when `FailOnHTTPError` is
true. -/
theorem expected_status_check (cfg : RequestConfig) (env : GoEnv)
    (tc : TLSConfig) (req : HTTPRequest) (rt : RoundTripper)
    (resp : HTTPResponse) (b : List Nat)
    (h1 : buildTLSConfig cfg env = .ok tc)
    (h2 : buildOutgoingRequest cfg env = .ok req)
    (h3 : configureHTTPTransport cfg.HTTPVersion tc cfg.Timeout = .ok rt)
    (hdo : clientDo cfg.FollowRedirects cfg.MaxRedirects env.serve = .ok resp)
    (hb : resp.bodyRead = .ok b) :
    (cfg.FailOnHTTPError = true → cfg.ExpectedStatusCodes ≠ [] →
      (resp.statusCode ∉ cfg.ExpectedStatusCodes →
        ExecuteRequest cfg env = .error (.unexpectedStatusCode resp.statusCode)) ∧
      (resp.statusCode ∈ cfg.ExpectedStatusCodes →
        ExecuteRequest cfg env = .ok (mkResult resp b))) ∧
    (cfg.ExpectedStatusCodes = [] →
      ExecuteRequest cfg env = .ok (mkResult resp b)) := by
  have hrun := ExecuteRequest_run cfg env tc req rt h1 h2 h3
  refine ⟨fun hfail hne => ⟨fun hnm => ?_, fun hm => ?_⟩, fun hempty => ?_⟩
  · rw [hrun]
    refine finishRequest_of_status_error cfg env resp b _ hdo hb ?_
    rw [hfail]
    exact checkStatus_fail cfg.ExpectedStatusCodes resp.statusCode hne hnm
  · rw [hrun]
    refine finishRequest_of_ok cfg env resp b hdo hb ?_
    rw [hfail]
    exact checkStatus_pass cfg.ExpectedStatusCodes resp.statusCode hm
  · rw [hrun]
    refine finishRequest_of_ok cfg env resp b hdo hb ?_
    rw [hempty]
    exact checkStatus_empty cfg.FailOnHTTPError resp.statusCode

/-- Witness for C6: the 200 response against expected sets containing,
missing, and — with the check active — empty of status codes. -/
theorem expected_status_check_witness :
    ExecuteRequest { cfg0 with FailOnHTTPError := true, ExpectedStatusCodes := [404] } env0 =
      .error (.unexpectedStatusCode 200) ∧
    ExecuteRequest { cfg0 with FailOnHTTPError := true, ExpectedStatusCodes := [200, 201] } env0 =
      .ok (mkResult okResp [111, 107]) ∧
    ExecuteRequest { cfg0 with FailOnHTTPError := true, ExpectedStatusCodes := [] } env0 =
      .ok (mkResult okResp [111, 107]) :=
  ⟨((expected_status_check { cfg0 with FailOnHTTPError := true, ExpectedStatusCodes := [404] }
      env0 tlsDefault
      { Method := "GET", URL := "http://example", Header := [], Body := [] }
      (.httpTransport tlsDefault false 5 5 5) okResp [111, 107]
      rfl rfl rfl rfl rfl).1 rfl (by decide)).1 (by decide),
   ((expected_status_check { cfg0 with FailOnHTTPError := true, ExpectedStatusCodes := [200, 201] }
      env0 tlsDefault
      { Method := "GET", URL := "http://example", Header := [], Body := [] }
      (.httpTransport tlsDefault false 5 5 5) okResp [111, 107]
      rfl rfl rfl rfl rfl).1 rfl (by decide)).2 (by decide),
   (expected_status_check { cfg0 with FailOnHTTPError := true, ExpectedStatusCodes := [] }
      env0 tlsDefault
      { Method := "GET", URL := "http://example", Header := [], Body := [] }
      (.httpTransport tlsDefault false 5 5 5) okResp [111, 107]
      rfl rfl rfl rfl rfl).2 rfl⟩

/-! ## Claim C9: body read precedes the status check -/

/-- Claim C9 (stated for any call whose configuration stages succeed and
whose network produced a response): a body-read failure makes the call
fail with the read error, even when the status code is also outside the
expected set; and an UnexpectedStatusCode failure — necessarily carrying
the response's own status — can only arise once the body was read
successfully. -/
theorem body_read_precedes_status_check (cfg : RequestConfig) (env : GoEnv)
    (tc : TLSConfig) (req : HTTPRequest) (rt : RoundTripper) (resp : HTTPResponse)
    (h1 : buildTLSConfig cfg env = .ok tc)
    (h2 : buildOutgoingRequest cfg env = .ok req)
    (h3 : configureHTTPTransport cfg.HTTPVersion tc cfg.Timeout = .ok rt)
    (hdo : clientDo cfg.FollowRedirects cfg.MaxRedirects env.serve = .ok resp) :
    (∀ e, resp.bodyRead = .error e →
        ExecuteRequest cfg env = .error (.responseReadFailure e)) ∧
    (∀ c : Int, ExecuteRequest cfg env = .error (.unexpectedStatusCode c) →
        c = resp.statusCode ∧ ∃ b, resp.bodyRead = .ok b) := by
  have hrun := ExecuteRequest_run cfg env tc req rt h1 h2 h3
  constructor
  · intro e he
    rw [hrun]
    simp [finishRequest, hdo, readBody, he, except_bind_ok, except_bind_error]
  · intro c hc
    rw [hrun] at hc
    cases hbr : resp.bodyRead with
    | error e =>
      have hfe : finishRequest cfg env = .error (.responseReadFailure e) := by
        simp [finishRequest, hdo, readBody, hbr, except_bind_ok, except_bind_error]
      rw [hfe] at hc
      simp at hc
    | ok b =>
      refine ⟨?_, b, rfl⟩
      cases hcs : checkStatus cfg.FailOnHTTPError cfg.ExpectedStatusCodes resp.statusCode with
      | error e =>
        have hfe : finishRequest cfg env = .error e := by
          simp [finishRequest, hdo, readBody, hbr, hcs, except_bind_ok, except_bind_error]
        rw [hfe] at hc
        have he := checkStatus_error_shape cfg.FailOnHTTPError cfg.ExpectedStatusCodes
          resp.statusCode e hcs
        rw [he] at hc
        simp only [Except.error.injEq, GoError.unexpectedStatusCode.injEq] at hc
        exact hc.symm
      | ok u =>
        cases u
        have hfe : finishRequest cfg env = .ok (mkResult resp b) :=
          finishRequest_of_ok cfg env resp b hdo hbr hcs
        rw [hfe] at hc
        cases hc

/-- Witness for C9: a response whose body read fails makes the
404-expecting call fail with the read error, and the unexpected-status
failure of that call against a readable 200 implies its body was read. -/
theorem body_read_precedes_status_check_witness :
    ExecuteRequest { cfg0 with FailOnHTTPError := true, ExpectedStatusCodes := [404] }
      envBodyFail = .error (.responseReadFailure "boom") ∧
    ((200 : Int) = okResp.statusCode ∧ ∃ b, okResp.bodyRead = .ok b) :=
  ⟨(body_read_precedes_status_check
      { cfg0 with FailOnHTTPError := true, ExpectedStatusCodes := [404] }
      envBodyFail tlsDefault
      { Method := "GET", URL := "http://example", Header := [], Body := [] }
      (.httpTransport tlsDefault false 5 5 5) bodyFailResp
      rfl rfl rfl rfl).1 "boom" rfl,
   (body_read_precedes_status_check
      { cfg0 with FailOnHTTPError := true, ExpectedStatusCodes := [404] }
      env0 tlsDefault
      { Method := "GET", URL := "http://example", Header := [], Body := [] }
      (.httpTransport tlsDefault false 5 5 5) okResp
      rfl rfl rfl rfl).2 200 rfl⟩

/-! ## Claims C8 and C10: basic-auth and the Authorization header -/

theorem find_setAssoc_self (k v : String) :
    ∀ h : List (String × String),
      ((setAssoc h k v).find? fun p => p.1 = k) = some (k, v) := by
  intro h
  induction h with
  | nil => simp [setAssoc, List.find?]
  | cons kv rest ih =>
    obtain ⟨k', v'⟩ := kv
    by_cases he : k' = k
    · simp [setAssoc, he, List.find?]
    · simp [setAssoc, he, List.find?, ih]

theorem find_setAssoc_other (k v K : String) (hne : k ≠ K) :
    ∀ h : List (String × String),
      ((setAssoc h k v).find? fun p => p.1 = K) = h.find? fun p => p.1 = K := by
  intro h
  induction h with
  | nil => simp [setAssoc, List.find?, hne]
  | cons kv rest ih =>
    obtain ⟨k', v'⟩ := kv
    by_cases he : k' = k
    · subst he
      simp [setAssoc, List.find?, hne]
    · by_cases hK : k' = K
      · have hKk : ¬K = k := fun hh => hne hh.symm
        simp [setAssoc, he, List.find?, hK, hKk]
      · simp [setAssoc, he, List.find?, hK, ih]

theorem headerGet_headerSet_self (h : List (String × String)) (k v : String) :
    headerGet (headerSet h k v) k = some v := by
  simp [headerGet, headerSet, find_setAssoc_self]

theorem headerGet_fold_not_mem (K : String) :
    ∀ (l init : List (String × String)),
      (∀ kv ∈ l, canonicalMIMEHeaderKey kv.1 ≠ canonicalMIMEHeaderKey K) →
      headerGet (l.foldl (fun h kv => headerSet h kv.1 kv.2) init) K = headerGet init K := by
  intro l
  induction l with
  | nil =>
    intro init _
    rfl
  | cons kv rest ih =>
    intro init hmem
    rw [List.foldl_cons,
      ih (headerSet init kv.1 kv.2) fun kv' hkv' => hmem kv' (List.mem_cons_of_mem _ hkv')]
    have hne := hmem kv (List.mem_cons_self _ _)
    simp only [headerGet, headerSet]
    rw [find_setAssoc_other (canonicalMIMEHeaderKey kv.1) kv.2
      (canonicalMIMEHeaderKey K) hne init]

theorem buildOutgoingRequest_auth_header (cfg : RequestConfig) (env : GoEnv)
    (req : HTTPRequest) (hu : cfg.Username ≠ "")
    (h : buildOutgoingRequest cfg env = .ok req) :
    headerGet req.Header "Authorization" =
      some ("Basic " ++ basicAuthEncode cfg.Username cfg.Password) := by
  cases hnr : env.newRequest cfg.Method cfg.URL with
  | error e => simp [buildOutgoingRequest, hnr] at h
  | ok u =>
    cases u
    simp only [buildOutgoingRequest, hnr] at h
    rw [if_pos hu] at h
    cases h
    exact headerGet_headerSet_self _ _ _

/-- Claim C8: the request-building step of `ExecuteRequest` attaches HTTP
Basic credentials — the `Authorization` header set to the encoded
username:password pair — exactly when `Username` is non-empty (an empty
`Password` does not prevent this); when `Username` is empty the header
map is exactly the fold of the user-supplied headers, so no Authorization
header is added by the basic-auth step. -/
theorem basic_auth_iff_username (cfg : RequestConfig) (env : GoEnv) (req : HTTPRequest)
    (h : buildOutgoingRequest cfg env = .ok req) :
    (cfg.Username ≠ "" →
      headerGet req.Header "Authorization" =
        some ("Basic " ++ basicAuthEncode cfg.Username cfg.Password)) ∧
    (cfg.Username = "" →
      req.Header = cfg.Headers.foldl (fun h kv => headerSet h kv.1 kv.2) [] ∧
      ((∀ kv ∈ cfg.Headers,
          canonicalMIMEHeaderKey kv.1 ≠ canonicalMIMEHeaderKey "Authorization") →
        headerGet req.Header "Authorization" = none)) := by
  refine ⟨fun hu => buildOutgoingRequest_auth_header cfg env req hu h, fun hu => ?_⟩
  cases hnr : env.newRequest cfg.Method cfg.URL with
  | error e => simp [buildOutgoingRequest, hnr] at h
  | ok u =>
    cases u
    simp only [buildOutgoingRequest, hnr] at h
    rw [if_neg (by simp [hu])] at h
    cases h
    refine ⟨rfl, fun hnone => ?_⟩
    rw [headerGet_fold_not_mem "Authorization" cfg.Headers [] hnone]
    rfl

/-- Witness for C8: username `user` with an empty password yields the
Basic header, while the baseline configuration with no username carries
no Authorization header. -/
theorem basic_auth_iff_username_witness :
    headerGet (headerSet [] "Authorization" ("Basic " ++ basicAuthEncode "user" ""))
      "Authorization" = some ("Basic " ++ basicAuthEncode "user" "") ∧
    basicAuthEncode "user" "" = "dXNlcjo=" ∧
    (∃ req, buildOutgoingRequest cfg0 env0 = .ok req ∧
      req.Header = [] ∧ headerGet req.Header "Authorization" = none) := by
  refine ⟨?_, rfl, ?_⟩
  · exact (basic_auth_iff_username { cfg0 with Username := "user" } env0
      { Method := "GET", URL := "http://example",
        Header := headerSet [] "Authorization" ("Basic " ++ basicAuthEncode "user" ""),
        Body := [] } rfl).1 (by decide)
  · refine ⟨{ Method := "GET", URL := "http://example", Header := [], Body := [] },
      rfl, rfl, ?_⟩
    exact ((basic_auth_iff_username cfg0 env0
      { Method := "GET", URL := "http://example", Header := [], Body := [] } rfl).2
      rfl).2 (by intro kv hkv; cases hkv)

/-- Claim C10: user-supplied headers are applied before the basic-auth
step, so when `Headers` contains an `Authorization` entry and `Username`
is non-empty, the final request's Authorization value is the Basic
credential string — the user-supplied value has been overwritten. -/
theorem auth_header_overwritten_by_basic (cfg : RequestConfig) (env : GoEnv)
    (req : HTTPRequest) (v : String)
    (hu : cfg.Username ≠ "") (hin : ("Authorization", v) ∈ cfg.Headers)
    (h : buildOutgoingRequest cfg env = .ok req) :
    headerGet req.Header "Authorization" =
      some ("Basic " ++ basicAuthEncode cfg.Username cfg.Password) ∧
    ("Basic " ++ basicAuthEncode cfg.Username cfg.Password ≠ v →
      headerGet req.Header "Authorization" ≠ some v) := by
  have hmain := buildOutgoingRequest_auth_header cfg env req hu h
  refine ⟨hmain, fun hne hcontra => hne ?_⟩
  rw [hmain] at hcontra
  exact Option.some.inj hcontra

/-- Witness for C10: a user-supplied bearer token is overwritten by the
Basic credentials of `user:pass`. -/
theorem auth_header_overwritten_by_basic_witness :
    headerGet bearerThenBasic "Authorization" =
      some ("Basic " ++ basicAuthEncode "user" "pass") ∧
    ("Basic " ++ basicAuthEncode "user" "pass" ≠ "Bearer token123" →
      headerGet bearerThenBasic "Authorization" ≠ some "Bearer token123") :=
  auth_header_overwritten_by_basic
    { cfg0 with
      Username := "user", Password := "pass",
      Headers := [("Authorization", "Bearer token123")] }
    env0
    { Method := "GET", URL := "http://example", Header := bearerThenBasic, Body := [] }
    "Bearer token123" (by decide) (List.mem_singleton.mpr rfl) rfl

end HttpClient
